import Mathlib

/-!
Shallow embedding of the cross-chain bridge event listener (`script.py`):
the durable state store (`StateDB`), the event decoder
(`BridgeContractHandler.get_deposit_events`), the per-event processing
(`EventProcessor.process_single_event`) and one iteration of the main
`while True` loop of `EventProcessor.run`.

External collaborators (the blockchain connectors and the HTTP gas-price
oracle) are modelled by explicit outcome values fed to the embedded
functions, and an uncaught Python exception is modelled as `Except.error`.
The Python built-in sorts (`list.sort()` and `sorted(...)` with a key) are
stable ascending sorts; they are embedded as `List.insertionSort`, which
is stable and extensionally agrees with any stable ascending sort.
-/

namespace Bridge

section StateStore

/-- A minimal JSON value, sufficient for the state file written by the
listener (an object holding an integer field and a list-of-integers
field).  All integers that reach the state file are naturals: block
numbers and uint64 nonces. -/
inductive Json where
  | num (n : Nat)
  | arr (xs : List Json)
  | obj (fields : List (String × Json))

/-- Field access on a decoded JSON object (first binding wins, as in a
Python dict built from distinct keys). -/
def lookupField (k : String) : List (String × Json) → Option Json
  | [] => none
  | (k2, v) :: rest => if k = k2 then some v else lookupField k rest

/-- `dict` access `j[k]` on a JSON value, `none` when absent. -/
def Json.lookup (j : Json) (k : String) : Option Json :=
  match j with
  | .obj fields => lookupField k fields
  | _ => none

/-- Reading a JSON value as a Python int. -/
def Json.asNat : Json → Option Nat
  | .num n => some n
  | _ => none

/-- Reading a list of JSON values as a Python list of ints. -/
def jsonNats : List Json → Option (List Nat)
  | [] => some []
  | j :: js =>
    match j.asNat, jsonNats js with
    | some n, some ns => some (n :: ns)
    | _, _ => none

/-- Reading a JSON value as a Python list of ints. -/
def Json.asNatList : Json → Option (List Nat)
  | .arr xs => jsonNats xs
  | _ => none

/-- The in-memory listener state.  Along every code path of `script.py`
the state dict holds exactly the two keys `last_processed_block` (int)
and `completed_nonces` (list of ints) — both in the default produced by
`StateDB._load` and after every mutation — so it is modelled as this
typed record. -/
structure DBState where
  last_processed_block : Nat
  completed_nonces : List Nat
deriving DecidableEq, Repr

/-- The JSON object written by `StateDB._save`
(`json.dump(self.state, f, indent=4)`). -/
def DBState.toJson (s : DBState) : Json :=
  .obj [("last_processed_block", .num s.last_processed_block),
        ("completed_nonces", .arr (s.completed_nonces.map .num))]

/-- Reading the state dict back from its JSON value, with the field
access the accessors of `StateDB` perform: `get` with default `0` for
`last_processed_block`, the list of ints stored under
`completed_nonces`. -/
def DBState.ofJson (j : Json) : DBState :=
  { last_processed_block := ((j.lookup "last_processed_block").bind Json.asNat).getD 0
    completed_nonces := ((j.lookup "completed_nonces").bind Json.asNatList).getD [] }

/-- Contents of the state file on disk: absent (`FileNotFoundError` on
open), present but not valid JSON (`json.JSONDecodeError`), or a parsed
JSON value. -/
inductive StateFile where
  | missing
  | corrupt
  | json (j : Json)

/-- `StateDB`: the in-memory state dict together with the backing file
at `db_path`. -/
structure StateDB where
  state : DBState
  file : StateFile

/-- `StateDB._load`: parse the file, defaulting to
`last_processed_block = 0`, `completed_nonces = []` on
`FileNotFoundError` or `json.JSONDecodeError`. -/
def StateDB.load (f : StateFile) : DBState :=
  match f with
  | .json j => DBState.ofJson j
  | _ => { last_processed_block := 0, completed_nonces := [] }

/-- `StateDB._save`: rewrite the file wholesale with the JSON of the
current state. -/
def StateDB.save (db : StateDB) : StateDB :=
  { db with file := .json db.state.toJson }

/-- `StateDB.get_last_processed_block`. -/
def StateDB.get_last_processed_block (db : StateDB) : Nat :=
  db.state.last_processed_block

/-- `StateDB.set_last_processed_block`: assign and save. -/
def StateDB.set_last_processed_block (db : StateDB) (block_number : Nat) : StateDB :=
  StateDB.save { db with state.last_processed_block := block_number }

/-- `StateDB.is_nonce_processed`: membership in the completed list. -/
def StateDB.is_nonce_processed (db : StateDB) (nonce : Nat) : Bool :=
  decide (nonce ∈ db.state.completed_nonces)

/-- `StateDB.mark_nonce_as_processed`: when the nonce is not yet present,
append it, sort the list ascending (`list.sort()`) and save; otherwise do
nothing. -/
def StateDB.mark_nonce_as_processed (db : StateDB) (nonce : Nat) : StateDB :=
  if db.is_nonce_processed nonce then db
  else
    StateDB.save
      { db with state.completed_nonces :=
          List.insertionSort (· ≤ ·) (db.state.completed_nonces ++ [nonce]) }

end StateStore

section Decoder

/-- The `DepositEvent` namedtuple. -/
structure DepositEvent where
  sender : String
  recipient : String
  amount : Nat
  destinationChainId : Nat
  nonce : Nat
  tx_hash : String
  log_index : Nat
deriving DecidableEq, Repr

/-- A raw log entry as seen by the decoder of
`BridgeContractHandler.get_deposit_events`: either it matches the ABI and
`process_log` yields a `DepositEvent`, or `process_log` raises on a
malformed or non-matching entry (`Except.error`). -/
abbrev RawLog := Except Unit DepositEvent

/-- The decode loop inside `get_deposit_events`: decode the fetched logs
one by one, an exception at any log aborting the loop. -/
def decode_logs : List RawLog → Except Unit (List DepositEvent)
  | [] => .ok []
  | log :: rest =>
    match log with
    | .error e => .error e
    | .ok ev =>
      match decode_logs rest with
      | .error e => .error e
      | .ok evs => .ok (ev :: evs)

/-- `BridgeContractHandler.get_deposit_events`: the whole fetch-and-decode
loop runs inside a single `try`; any exception is caught, logged, and the
function returns the empty list. -/
def get_deposit_events (raw_logs : List RawLog) : List DepositEvent :=
  match decode_logs raw_logs with
  | .ok evs => evs
  | .error _ => []

end Decoder

section Processor

/-- The parsed oracle response body, as consumed by
`float(gas_data[result][ProposeGasPrice])`:
  * `wellFormed p` — both keys are present and the value parses as a
    float `p` (the float values that occur are exact decimals, modelled
    by `Rat`);
  * `malformed` — a missing key or unparsable value, so the access raises
    `KeyError`, `TypeError` or `ValueError`, none of which is a
    `requests.exceptions.RequestException`. -/
inductive OracleBody where
  | wellFormed (price : Rat)
  | malformed
deriving DecidableEq, Repr

/-- Outcome of the HTTP interaction in
`EventProcessor._fetch_gas_price_from_oracle`:
  * `requestError` — `requests.get`, `raise_for_status` or
    `response.json` raised a `requests.exceptions.RequestException`;
  * `ok body` — a JSON body was obtained. -/
inductive OracleHttp where
  | requestError
  | ok (body : OracleBody)
deriving DecidableEq, Repr

/-- `EventProcessor._fetch_gas_price_from_oracle`.  The `except` clause
catches only `requests.exceptions.RequestException` and returns the
default `50.0`; an exception raised while reading the body propagates
(`Except.error`). -/
def fetch_gas_price_from_oracle (http : OracleHttp) : Except Unit Rat :=
  match http with
  | .requestError => .ok 50
  | .ok (.wellFormed p) => .ok p
  | .ok .malformed => .error ()

/-- `BridgeContractHandler.execute_mint`: `send_raw_transaction` either
returns a transaction hash or raises; the exception is caught and `None`
is returned. -/
def execute_mint (send_result : Except Unit String) : Option String :=
  match send_result with
  | .ok tx_hash => some tx_hash
  | .error _ => none

/-- A destination-chain transaction receipt. -/
structure Receipt where
  status : Nat
  blockNumber : Nat
  transactionHash : String
deriving DecidableEq, Repr

/-- Outcomes of the external calls made while processing one event:
the oracle interaction, `send_raw_transaction` on the destination
connector (`Except.error` = it raised), and `get_transaction_receipt`
(`Except.error` = it raised; `Option` models the truthiness check
`if receipt and ...`). -/
structure Env where
  oracle : OracleHttp
  send_result : Except Unit String
  receipt_result : Except Unit (Option Receipt)

/-- `EventProcessor.process_single_event`.  Returns the Python return
value (`Except.error` = an uncaught exception escaped), the state store
after the call, and whether `execute_mint` was invoked on the
destination handler. -/
def process_single_event (target_chain_id : Nat) (db : StateDB) (env : Env)
    (event : DepositEvent) : Except Unit Bool × StateDB × Bool :=
  if event.destinationChainId ≠ target_chain_id then (.ok true, db, false)
  else if db.is_nonce_processed event.nonce then (.ok true, db, false)
  else
    match fetch_gas_price_from_oracle env.oracle with
    | .error e => (.error e, db, false)
    | .ok _ =>
      match execute_mint env.send_result with
      | none => (.ok false, db, true)
      | some _ =>
        match env.receipt_result with
        | .error _ => (.ok false, db, true)
        | .ok none => (.ok false, db, true)
        | .ok (some receipt) =>
          if receipt.status = 1 then
            (.ok true, db.mark_nonce_as_processed event.nonce, true)
          else (.ok false, db, true)

end Processor

section MainLoop

/-- The Python sort key `lambda e: (e.nonce, e.log_index)`. -/
def event_key (e : DepositEvent) : Nat × Nat := (e.nonce, e.log_index)

/-- Python tuple comparison of the sort keys (lexicographic). -/
def event_le (a b : DepositEvent) : Prop :=
  a.nonce < b.nonce ∨ (a.nonce = b.nonce ∧ a.log_index ≤ b.log_index)

instance : DecidableRel event_le := fun a b =>
  inferInstanceAs (Decidable (a.nonce < b.nonce ∨ (a.nonce = b.nonce ∧ a.log_index ≤ b.log_index)))

instance : IsTotal DepositEvent event_le :=
  ⟨fun a b => by simp only [event_le]; omega⟩

instance : IsTrans DepositEvent event_le :=
  ⟨fun a b c hab hbc => by simp only [event_le] at hab hbc ⊢; omega⟩

/-- Strict comparison of the sort keys; two events related by it are in
strictly ascending `(nonce, logIndex)` order. -/
def event_lt (a b : DepositEvent) : Prop :=
  a.nonce < b.nonce ∨ (a.nonce = b.nonce ∧ a.log_index < b.log_index)

instance : IsAntisymm DepositEvent event_lt :=
  ⟨fun a b h1 h2 => by exfalso; simp only [event_lt] at h1 h2; omega⟩

/-- `sorted(events, key=lambda e: (e.nonce, e.log_index))`: a stable
ascending sort by the key, embedded as insertion sort (which is stable). -/
def sort_events (events : List DepositEvent) : List DepositEvent :=
  List.insertionSort event_le events

/-- `self.block_scan_range = 100`. -/
def block_scan_range : Nat := 100

/-- The scan-window computation at the top of `EventProcessor.run`:
`from_block = last_processed_block + 1` and
`to_block = min(latest_block, from_block + self.block_scan_range)`. -/
def scan_window (last_processed_block latest_block : Nat) : Nat × Nat :=
  let from_block := last_processed_block + 1
  (from_block, min latest_block (from_block + block_scan_range))

/-- What one iteration of `EventProcessor.run` observes of the outside
world: the latest source block, the raw logs fetched for the window, and
the outcomes of the external calls made for each event. -/
structure IterEnv where
  latest_block : Nat
  raw_logs : List RawLog
  env_of : DepositEvent → Env

/-- The `for event in sorted(events, ...)` loop of `EventProcessor.run`:
process events in order, a `False` result breaking out of the loop, an
uncaught exception aborting the iteration.  Returns the state store after
the loop, whether an exception was raised, and the list of events for
which `execute_mint` was invoked, in invocation order. -/
def process_batch (target_chain_id : Nat) (env_of : DepositEvent → Env) :
    StateDB → List DepositEvent → StateDB × Bool × List DepositEvent
  | db, [] => (db, false, [])
  | db, ev :: rest =>
    match process_single_event target_chain_id db (env_of ev) ev with
    | (.error _, db2, dispatched) => (db2, true, if dispatched then [ev] else [])
    | (.ok true, db2, dispatched) =>
      ((process_batch target_chain_id env_of db2 rest).1,
       (process_batch target_chain_id env_of db2 rest).2.1,
       (if dispatched then [ev] else []) ++ (process_batch target_chain_id env_of db2 rest).2.2)
    | (.ok false, db2, dispatched) => (db2, false, if dispatched then [ev] else [])

/-- One iteration of the `while True` loop of `EventProcessor.run` (the
body of the outer `try`, whose `except` catches any uncaught exception
and proceeds to the next iteration).  Returns the state store after the
iteration together with the dispatch trace.  Note that
`set_last_processed_block(to_block)` is executed whenever the `for` loop
is left without an exception — also when it was left via the `break` on
a failed event. -/
def run_iteration (target_chain_id : Nat) (db : StateDB) (ie : IterEnv) :
    StateDB × List DepositEvent :=
  let wnd := scan_window db.get_last_processed_block ie.latest_block
  if wnd.1 > ie.latest_block then (db, [])
  else
    let events := get_deposit_events ie.raw_logs
    let out := process_batch target_chain_id ie.env_of db (sort_events events)
    if out.2.1 then (out.1, out.2.2)
    else (out.1.set_last_processed_block wnd.2, out.2.2)

end MainLoop

instance {ε α : Type} [DecidableEq ε] [DecidableEq α] : DecidableEq (Except ε α) :=
  fun a b =>
    match a, b with
    | .ok x, .ok y =>
      if h : x = y then isTrue (by rw [h]) else isFalse (fun hc => h (Except.ok.inj hc))
    | .error x, .error y =>
      if h : x = y then isTrue (by rw [h]) else isFalse (fun hc => h (Except.error.inj hc))
    | .ok _, .error _ => isFalse (fun hc => Except.noConfusion hc)
    | .error _, .ok _ => isFalse (fun hc => Except.noConfusion hc)

section Examples

/-- An example deposit event destined for the configured target chain 97. -/
def ev1 : DepositEvent :=
  { sender := "0xb", recipient := "0xc", amount := 1000, destinationChainId := 97,
    nonce := 1, tx_hash := "0xaaaa", log_index := 0 }

/-- A second example event with a larger nonce. -/
def ev2 : DepositEvent := { ev1 with nonce := 2, tx_hash := "0xbbbb" }

/-- An example event destined for another chain. -/
def ev_other_chain : DepositEvent := { ev1 with destinationChainId := 56, nonce := 3 }

/-- External outcomes for a fully successful relay of one event. -/
def env_ok : Env :=
  { oracle := .requestError
    send_result := .ok "0xmint"
    receipt_result := .ok (some { status := 1, blockNumber := 7, transactionHash := "0xmint" }) }

/-- External outcomes where `send_raw_transaction` raises, so
`execute_mint` returns `None` and the event fails. -/
def env_send_fails : Env := { env_ok with send_result := .error () }

/-- External outcomes where the oracle HTTP call succeeds but the body is
missing the expected fields. -/
def env_oracle_malformed : Env := { env_ok with oracle := .ok .malformed }

/-- A state store holding block 100 and no completed nonces, backed by no
file yet. -/
def db100 : StateDB :=
  { state := { last_processed_block := 100, completed_nonces := [] }, file := .missing }

/-- A state store that has already completed nonce 5. -/
def db_n5 : StateDB :=
  { state := { last_processed_block := 0, completed_nonces := [5] }, file := .missing }

/-- The iteration environment for the halt-and-retry scenario: head at
block 105, two decodable events in the window, dispatch failing for the
first event (by nonce order) and succeeding for the second. -/
def iter_env_fail : IterEnv :=
  { latest_block := 105
    raw_logs := [.ok ev1, .ok ev2]
    env_of := fun e => if e.nonce = 1 then env_send_fails else env_ok }

end Examples

section StateStoreProofs

/-- No-op case of `mark_nonce_as_processed`: an already-present nonce
leaves the store, including the backing file, untouched. -/
theorem mark_nonce_as_processed_noop (db : StateDB) (n : Nat)
    (h : db.is_nonce_processed n = true) : db.mark_nonce_as_processed n = db := by
  simp [StateDB.mark_nonce_as_processed, h]

/-- After `mark_nonce_as_processed n`, the nonce `n` is present. -/
theorem is_nonce_processed_mark_self (db : StateDB) (n : Nat) :
    (db.mark_nonce_as_processed n).is_nonce_processed n = true := by
  by_cases h : db.is_nonce_processed n = true
  · simpa [mark_nonce_as_processed_noop db n h]
  · simp only [StateDB.mark_nonce_as_processed, h, if_false, Bool.false_eq_true]
    simp [StateDB.is_nonce_processed, StateDB.save,
      (List.perm_insertionSort (α := Nat) (· ≤ ·) _).mem_iff]

/-- **C6**: `markCompleted` is idempotent: marking the same nonce twice
leaves the store equal to its value after the first call, and marking an
already-present nonce is a no-op that does not modify the in-memory state
or rewrite the state file. -/
theorem mark_nonce_as_processed_idempotent (db : StateDB) (n : Nat) :
    (db.mark_nonce_as_processed n).mark_nonce_as_processed n = db.mark_nonce_as_processed n
    ∧ (db.is_nonce_processed n = true → db.mark_nonce_as_processed n = db) :=
  ⟨mark_nonce_as_processed_noop _ n (is_nonce_processed_mark_self db n),
   fun h => mark_nonce_as_processed_noop db n h⟩

/-- Witness for C6 at a concrete store: nonce 5 is already present in
`db_n5`, so marking it is a no-op, and double marking equals single
marking. -/
theorem mark_nonce_as_processed_idempotent_witness :
    (db_n5.mark_nonce_as_processed 5).mark_nonce_as_processed 5 = db_n5.mark_nonce_as_processed 5
    ∧ db_n5.mark_nonce_as_processed 5 = db_n5 :=
  ⟨(mark_nonce_as_processed_idempotent db_n5 5).1,
   (mark_nonce_as_processed_idempotent db_n5 5).2 (by decide)⟩

/-- One `mark_nonce_as_processed` call preserves strict sortedness of the
completed-nonce list. -/
theorem mark_preserves_sorted (db : StateDB) (n : Nat)
    (h : db.state.completed_nonces.Sorted (· < ·)) :
    ((db.mark_nonce_as_processed n).state.completed_nonces).Sorted (· < ·) := by
  by_cases hm : db.is_nonce_processed n = true
  · simpa [mark_nonce_as_processed_noop db n hm]
  · have hnotmem : n ∉ db.state.completed_nonces := by
      simpa [StateDB.is_nonce_processed] using hm
    simp only [StateDB.mark_nonce_as_processed, hm, if_false, Bool.false_eq_true, StateDB.save]
    have hsorted : (List.insertionSort (· ≤ ·) (db.state.completed_nonces ++ [n])).Sorted (· ≤ ·) :=
      List.sorted_insertionSort _ _
    have hnodup : (List.insertionSort (· ≤ ·) (db.state.completed_nonces ++ [n])).Nodup := by
      refine (List.perm_insertionSort _ _).nodup_iff.mpr ?_
      simp [List.nodup_append, h.nodup, hnotmem]
    exact hsorted.lt_of_le hnodup

/-- **C10**: if `completed_nonces` is a duplicate-free ascending-sorted
list, then after any sequence of `mark_nonce_as_processed` calls it is
still a duplicate-free ascending-sorted list. -/
theorem completed_nonces_sorted_nodup_invariant (db : StateDB) (ns : List Nat)
    (h1 : db.state.completed_nonces.Sorted (· ≤ ·))
    (h2 : db.state.completed_nonces.Nodup) :
    ((ns.foldl StateDB.mark_nonce_as_processed db).state.completed_nonces).Sorted (· ≤ ·)
    ∧ ((ns.foldl StateDB.mark_nonce_as_processed db).state.completed_nonces).Nodup := by
  have key : ∀ (ms : List Nat) (db2 : StateDB), db2.state.completed_nonces.Sorted (· < ·) →
      ((ms.foldl StateDB.mark_nonce_as_processed db2).state.completed_nonces).Sorted (· < ·) := by
    intro ms
    induction ms with
    | nil => intro db2 h; exact h
    | cons m rest ih => intro db2 h; exact ih _ (mark_preserves_sorted db2 m h)
  have hres := key ns db (h1.lt_of_le h2)
  exact ⟨hres.le_of_lt, hres.nodup⟩

/-- Witness for C10 at a concrete store and call sequence (with a repeat
in the sequence). -/
theorem completed_nonces_sorted_nodup_invariant_witness :
    (([3, 1, 3].foldl StateDB.mark_nonce_as_processed db_n5).state.completed_nonces).Sorted (· ≤ ·)
    ∧ (([3, 1, 3].foldl StateDB.mark_nonce_as_processed db_n5).state.completed_nonces).Nodup :=
  completed_nonces_sorted_nodup_invariant db_n5 [3, 1, 3]
    (List.sorted_singleton 5) (List.nodup_singleton 5)

/-- Decoding the JSON written by `_save` recovers the state dict. -/
theorem jsonNats_map_num (xs : List Nat) : jsonNats (xs.map Json.num) = some xs := by
  induction xs with
  | nil => rfl
  | cons x rest ih => simp [jsonNats, Json.asNat, ih]

/-- The serialization round trip at the level of one state value. -/
theorem ofJson_toJson (s : DBState) : DBState.ofJson s.toJson = s := by
  cases s with
  | mk lb cn =>
    simp [DBState.ofJson, DBState.toJson, Json.lookup, lookupField, Json.asNat,
      Json.asNatList, jsonNats_map_num]

/-- **C9**: state persistence round-trips: reloading the file written by
either mutating operation yields exactly the in-memory state
(`lastProcessedBlock` and the `completedNonces` list), and a missing or
unparseable state file loads as the zero-value default. -/
theorem state_store_roundtrip :
    (∀ s : DBState, StateDB.load (StateFile.json s.toJson) = s)
    ∧ (∀ (db : StateDB) (n : Nat),
        StateDB.load (db.set_last_processed_block n).file = (db.set_last_processed_block n).state)
    ∧ (∀ (db : StateDB) (n : Nat), db.is_nonce_processed n = false →
        StateDB.load (db.mark_nonce_as_processed n).file = (db.mark_nonce_as_processed n).state)
    ∧ StateDB.load .missing = { last_processed_block := 0, completed_nonces := [] }
    ∧ StateDB.load .corrupt = { last_processed_block := 0, completed_nonces := [] } := by
  refine ⟨fun s => ofJson_toJson s, fun db n => ?_, fun db n h => ?_, rfl, rfl⟩
  · simp [StateDB.set_last_processed_block, StateDB.save, StateDB.load, ofJson_toJson]
  · simp [StateDB.mark_nonce_as_processed, h, StateDB.save, StateDB.load, ofJson_toJson]

/-- Witness for C9 at a concrete store: committing block 7 and marking
nonce 5 both leave a file that reloads to the current state, and a
missing file loads as the default. -/
theorem state_store_roundtrip_witness :
    StateDB.load (db100.set_last_processed_block 7).file = (db100.set_last_processed_block 7).state
    ∧ StateDB.load (db100.mark_nonce_as_processed 5).file = (db100.mark_nonce_as_processed 5).state
    ∧ StateDB.load .missing = { last_processed_block := 0, completed_nonces := [] } :=
  ⟨state_store_roundtrip.2.1 db100 7,
   state_store_roundtrip.2.2.1 db100 5 (by decide),
   state_store_roundtrip.2.2.2.1⟩

end StateStoreProofs

section DecoderProofs

/-- The decode loop raises as soon as it reaches an undecodable log. -/
theorem decode_logs_error_of_mem (logs : List RawLog) (h : Except.error () ∈ logs) :
    decode_logs logs = .error () := by
  induction logs with
  | nil => cases h
  | cons l rest ih =>
    cases h with
    | head => simp [decode_logs]
    | tail _ hmem =>
      cases l with
      | error e => cases e; simp [decode_logs]
      | ok ev => simp [decode_logs, ih hmem]

/-- A batch of well-formed logs decodes in full. -/
theorem decode_logs_all_ok (evs : List DepositEvent) :
    decode_logs (evs.map Except.ok) = .ok evs := by
  induction evs with
  | nil => rfl
  | cons e rest ih => simp [decode_logs, ih]

/-- Counterexample to **C2** as stated: a batch holding one well-formed
log and one malformed log does not return the decoded remainder
`[ev1]` — the whole batch is dropped. -/
theorem get_deposit_events_drops_whole_batch :
    get_deposit_events [Except.ok ev1, Except.error ()] ≠ [ev1]
    ∧ get_deposit_events [Except.ok ev1, Except.error ()] = [] := by
  refine ⟨?_, rfl⟩
  decide

/-- **C2 amended**: a malformed or non-matching log entry causes the
entire batch fetched for the window to be dropped — `get_deposit_events`
catches the decode exception and returns the empty list — while the scan
itself is not aborted (the function returns normally); a batch with no
malformed entries is decoded in full. -/
theorem get_deposit_events_batch_drop (logs : List RawLog) :
    (Except.error () ∈ logs → get_deposit_events logs = [])
    ∧ (∀ evs : List DepositEvent, logs = evs.map Except.ok → get_deposit_events logs = evs) := by
  constructor
  · intro h
    simp [get_deposit_events, decode_logs_error_of_mem logs h]
  · intro evs hmap
    subst hmap
    simp [get_deposit_events, decode_logs_all_ok]

/-- Witness for the amended C2 at concrete batches. -/
theorem get_deposit_events_batch_drop_witness :
    get_deposit_events [Except.ok ev1, Except.error ()] = []
    ∧ get_deposit_events [Except.ok ev1, Except.ok ev2] = [ev1, ev2] :=
  ⟨(get_deposit_events_batch_drop [Except.ok ev1, Except.error ()]).1 (by decide),
   (get_deposit_events_batch_drop [Except.ok ev1, Except.ok ev2]).2 [ev1, ev2] rfl⟩

end DecoderProofs

section WindowProofs

/-- **C3** (code bug): the scan window lacks the `- 1` of the documented
formula.  With `lastProcessedBlock = 100` and head 1000 the code computes
the window `[101, 201]`, which spans 101 blocks — more than
`block_scan_range = 100` (the code comments say the listener processes up
to 100 blocks at a time) — while the documented formula
`min(latest, fromBlock + maxRangeSize - 1)` yields 200. -/
theorem scan_window_exceeds_max_range :
    scan_window 100 1000 = (101, 201)
    ∧ block_scan_range < 201 - 101 + 1
    ∧ min 1000 (101 + block_scan_range - 1) = 200 := by
  decide

end WindowProofs

section ProcessorProofs

/-- **C7**: a record destined for a different chain, or whose nonce is
already completed, is settled (`True`) without invoking the destination
dispatcher and without touching the state store. -/
theorem skip_filtered_and_completed (tcid : Nat) (db : StateDB) (env : Env) (e : DepositEvent)
    (h : e.destinationChainId ≠ tcid ∨ db.is_nonce_processed e.nonce = true) :
    process_single_event tcid db env e = (.ok true, db, false) := by
  rcases h with h | h
  · simp [process_single_event, h]
  · by_cases h2 : e.destinationChainId = tcid
    · simp [process_single_event, h2, h]
    · simp [process_single_event, h2]

/-- Witness for C7: an event for chain 56 under target 97, and an event
whose nonce 5 is already completed in `db_n5`. -/
theorem skip_filtered_and_completed_witness :
    process_single_event 97 db100 env_ok ev_other_chain = (.ok true, db100, false)
    ∧ process_single_event 97 db_n5 env_ok { ev1 with nonce := 5 }
        = (.ok true, db_n5, false) :=
  ⟨skip_filtered_and_completed 97 db100 env_ok ev_other_chain (.inl (by decide)),
   skip_filtered_and_completed 97 db_n5 env_ok { ev1 with nonce := 5 } (.inr (by decide))⟩

/-- Counterexample to **C8** as stated: a failure of the oracle call that
happens while reading the response body (missing key or non-numeric
value) does not return the default `50.0` — it raises, the exception
propagates out of `process_single_event`, and the record is not
dispatched. -/
theorem oracle_failure_not_always_defaulted :
    fetch_gas_price_from_oracle (.ok .malformed) = .error ()
    ∧ fetch_gas_price_from_oracle (.ok .malformed) ≠ .ok 50
    ∧ process_single_event 97 db100 env_oracle_malformed ev1 = (.error (), db100, false) := by
  refine ⟨rfl, ?_, rfl⟩
  decide

/-- **C8 amended**: the fee-oracle lookup is best-effort only against
network-level failures: a `requests.exceptions.RequestException` is
caught and the fixed default `50.0` is returned, and such a failure never
prevents the record from being dispatched; a well-formed body returns its
parsed price; but a body-parsing failure raises an uncaught exception, so
the record is not dispatched on such failures. -/
theorem oracle_request_error_defaults (tcid : Nat) (db : StateDB) (env : Env) (e : DepositEvent)
    (hchain : e.destinationChainId = tcid)
    (hnew : db.is_nonce_processed e.nonce = false)
    (hreq : env.oracle = .requestError) :
    fetch_gas_price_from_oracle env.oracle = .ok 50
    ∧ (∀ p, fetch_gas_price_from_oracle (.ok (.wellFormed p)) = .ok p)
    ∧ fetch_gas_price_from_oracle (.ok .malformed) = .error ()
    ∧ (process_single_event tcid db env e).2.2 = true := by
  refine ⟨by simp [hreq, fetch_gas_price_from_oracle], fun p => rfl, rfl, ?_⟩
  rcases henv : env.send_result with u | tx
  · simp [process_single_event, hchain, hnew, hreq, henv, execute_mint,
      fetch_gas_price_from_oracle]
  · rcases hrec : env.receipt_result with u | r
    · simp [process_single_event, hchain, hnew, hreq, henv, hrec, execute_mint,
        fetch_gas_price_from_oracle]
    · rcases r with _ | rc
      · simp [process_single_event, hchain, hnew, hreq, henv, hrec, execute_mint,
          fetch_gas_price_from_oracle]
      · by_cases hrs : rc.status = 1 <;>
          simp [process_single_event, hchain, hnew, hreq, henv, hrec, execute_mint,
            fetch_gas_price_from_oracle, hrs]

/-- Witness for the amended C8: with the oracle HTTP call failing, the
default is used and the event is still dispatched. -/
theorem oracle_request_error_defaults_witness :
    fetch_gas_price_from_oracle env_ok.oracle = .ok 50
    ∧ (∀ p, fetch_gas_price_from_oracle (.ok (.wellFormed p)) = .ok p)
    ∧ fetch_gas_price_from_oracle (.ok .malformed) = .error ()
    ∧ (process_single_event 97 db100 env_ok ev1).2.2 = true :=
  oracle_request_error_defaults 97 db100 env_ok ev1 rfl (by decide) rfl

/-- **C4**: `markCompleted` is called exactly on confirmed success.  For
an event that passes the chain filter and the dedup check (and whose
oracle lookup does not raise): on a dispatch handle plus a receipt with
status 1, the call returns `True` with the nonce marked; if dispatch
returns no handle, if fetching the receipt raises, or if the receipt is
falsy or reports a non-1 status, the call returns `False` and the state
store — in particular `completedNonces` — is unchanged. -/
theorem mark_completed_iff_confirmed (tcid : Nat) (db : StateDB) (env : Env) (e : DepositEvent)
    (hchain : e.destinationChainId = tcid)
    (hnew : db.is_nonce_processed e.nonce = false)
    (horacle : env.oracle ≠ .ok .malformed) :
    (∀ tx r, env.send_result = .ok tx → env.receipt_result = .ok (some r) → r.status = 1 →
      process_single_event tcid db env e
        = (.ok true, db.mark_nonce_as_processed e.nonce, true))
    ∧ (env.send_result = .error () →
      process_single_event tcid db env e = (.ok false, db, true))
    ∧ (∀ tx, env.send_result = .ok tx → env.receipt_result = .error () →
      process_single_event tcid db env e = (.ok false, db, true))
    ∧ (∀ tx r, env.send_result = .ok tx → env.receipt_result = .ok r →
      (∀ rc, r = some rc → rc.status ≠ 1) →
      process_single_event tcid db env e = (.ok false, db, true)) := by
  obtain ⟨p, hp⟩ : ∃ p, fetch_gas_price_from_oracle env.oracle = .ok p := by
    rcases ho : env.oracle with _ | body
    · exact ⟨50, by simp [ho, fetch_gas_price_from_oracle]⟩
    · rcases body with q | _
      · exact ⟨q, by simp [ho, fetch_gas_price_from_oracle]⟩
      · exact absurd ho horacle
  refine ⟨fun tx r hsend hrec hst => ?_, fun hsend => ?_, fun tx hsend hrec => ?_,
    fun tx r hsend hrec hne => ?_⟩
  · simp [process_single_event, hchain, hnew, hp, hsend, hrec, execute_mint, hst]
  · simp [process_single_event, hchain, hnew, hp, hsend, execute_mint]
  · simp [process_single_event, hchain, hnew, hp, hsend, hrec, execute_mint]
  · rcases r with _ | rc
    · simp [process_single_event, hchain, hnew, hp, hsend, hrec, execute_mint]
    · have hst := hne rc rfl
      simp [process_single_event, hchain, hnew, hp, hsend, hrec, execute_mint, hst]

/-- Witness for C4: a confirmed success marks nonce 1; a failed dispatch
returns `False` with the store untouched. -/
theorem mark_completed_iff_confirmed_witness :
    process_single_event 97 db100 env_ok ev1
      = (.ok true, db100.mark_nonce_as_processed 1, true)
    ∧ process_single_event 97 db100 env_send_fails ev1 = (.ok false, db100, true) :=
  ⟨(mark_completed_iff_confirmed 97 db100 env_ok ev1 rfl (by decide) (by decide)).1
      "0xmint" { status := 1, blockNumber := 7, transactionHash := "0xmint" } rfl rfl rfl,
   (mark_completed_iff_confirmed 97 db100 env_send_fails ev1 rfl (by decide) (by decide)).2.1
      rfl⟩

end ProcessorProofs

section MainLoopProofs

/-- The processing order is sorted by the key comparison. -/
theorem sort_events_sorted (l : List DepositEvent) : (sort_events l).Sorted event_le :=
  List.sorted_insertionSort event_le l

/-- The processing order is a permutation of the decoded batch. -/
theorem sort_events_perm (l : List DepositEvent) : (sort_events l).Perm l :=
  List.perm_insertionSort event_le l

/-- Non-strict key order plus distinct keys gives strict key order. -/
theorem event_lt_of_le_of_ne (a b : DepositEvent) (hle : event_le a b)
    (hne : event_key a ≠ event_key b) : event_lt a b := by
  simp only [event_le] at hle
  simp only [event_key, ne_eq, Prod.mk.injEq, not_and] at hne
  simp only [event_lt]
  omega

/-- With pairwise-distinct keys, the processing order is strictly
ascending in the key. -/
theorem sort_events_pairwise_lt (l : List DepositEvent)
    (hdist : l.Pairwise fun a b => event_key a ≠ event_key b) :
    (sort_events l).Pairwise event_lt := by
  have hd2 : (sort_events l).Pairwise fun a b => event_key a ≠ event_key b :=
    ((sort_events_perm l).pairwise_iff fun h => h.symm).mpr hdist
  exact (sort_events_sorted l).imp₂ (fun a b hle hne => event_lt_of_le_of_ne a b hle hne) hd2

/-- The dispatch trace of the processing loop is a sublist of the list it
iterates over. -/
theorem process_batch_trace_sublist (tcid : Nat) (env_of : DepositEvent → Env) :
    ∀ (db : StateDB) (evs : List DepositEvent),
      List.Sublist (process_batch tcid env_of db evs).2.2 evs := by
  intro db evs
  induction evs generalizing db with
  | nil => simp [process_batch]
  | cons e rest ih =>
    rcases hps : process_single_event tcid db (env_of e) e with ⟨res, db2, dispatched⟩
    rcases res with u | b
    · simp only [process_batch, hps]
      cases dispatched
      · simp
      · simp
    · cases b
      · simp only [process_batch, hps]
        cases dispatched
        · simp
        · simp
      · simp only [process_batch, hps]
        cases dispatched
        · simpa using List.Sublist.cons e (ih db2)
        · simpa using List.Sublist.cons₂ e (ih db2)

/-- **C5**: for a batch with pairwise-distinct `(nonce, logIndex)` keys,
the engine processes records in strictly ascending key order, the order
is independent of arrival order (any permutation of the batch sorts to
the same processing list), and the destination dispatcher is invoked in
strictly ascending key order. -/
theorem dispatch_order_strictly_ascending (l l2 : List DepositEvent)
    (hperm : l.Perm l2)
    (hdist : l.Pairwise fun a b => event_key a ≠ event_key b) :
    (sort_events l).Pairwise event_lt
    ∧ sort_events l = sort_events l2
    ∧ ∀ (tcid : Nat) (env_of : DepositEvent → Env) (db : StateDB),
        ((process_batch tcid env_of db (sort_events l)).2.2).Pairwise event_lt := by
  have hdist2 : l2.Pairwise fun a b => event_key a ≠ event_key b :=
    (hperm.pairwise_iff fun h => h.symm).mp hdist
  have h1 := sort_events_pairwise_lt l hdist
  have h2 := sort_events_pairwise_lt l2 hdist2
  have heq : sort_events l = sort_events l2 :=
    List.eq_of_perm_of_sorted
      ((sort_events_perm l).trans (hperm.trans (sort_events_perm l2).symm)) h1 h2
  exact ⟨h1, heq, fun tcid env_of db =>
    List.Pairwise.sublist (process_batch_trace_sublist tcid env_of db (sort_events l)) h1⟩

/-- Witness for C5 at concrete batches in reversed arrival order. -/
theorem dispatch_order_strictly_ascending_witness :
    (sort_events [ev2, ev1]).Pairwise event_lt
    ∧ sort_events [ev2, ev1] = sort_events [ev1, ev2]
    ∧ ((process_batch 97 (fun _ => env_ok) db100 (sort_events [ev2, ev1])).2.2).Pairwise
        event_lt :=
  ⟨(dispatch_order_strictly_ascending [ev2, ev1] [ev1, ev2] (by decide) (by decide)).1,
   (dispatch_order_strictly_ascending [ev2, ev1] [ev1, ev2] (by decide) (by decide)).2.1,
   (dispatch_order_strictly_ascending [ev2, ev1] [ev1, ev2] (by decide) (by decide)).2.2
     97 (fun _ => env_ok) db100⟩

/-- **C1** (code bug): in the halt-and-retry scenario the loop does stop
at the failed record — only the first event is dispatched and
`completedNonces` is unchanged — but `set_last_processed_block(to_block)`
still runs after the `break`, advancing `lastProcessedBlock` from 100 to
105 instead of leaving it at 100 as the claim (and the code comments at
the `break` and at the state update) require. -/
theorem run_iteration_advances_block_despite_failure :
    db100.get_last_processed_block = 100
    ∧ (run_iteration 97 db100 iter_env_fail).2 = [ev1]
    ∧ (run_iteration 97 db100 iter_env_fail).1.state.completed_nonces = []
    ∧ (run_iteration 97 db100 iter_env_fail).1.get_last_processed_block = 105 := by
  decide

end MainLoopProofs

end Bridge
